import Mathlib

/-!
Shallow embedding of `uploaders/common.go` (package `uploaders`) from the
kanto-file-upload repository, together with theorems checking the
specification's claims against it.

Modelling conventions:
* Go strings are modelled as `List Char` (`Str`); Go `[]byte` as `List Nat`
  (each entry a byte value).
* A Go `map[string]string` is modelled as an association list with unique
  keys (`GoMap`); indexing `m[k]` is `goGetD` (zero value `""` when absent)
  and the two-result form `v, ok := m[k]` is `goGet?`.
* External effects are passed in explicitly: the filesystem is a partial map
  from paths to file contents, the network is a function from transport and
  request to a response, `crypto/md5` is an abstract digest function on byte
  lists, and `net/url.Parse` is an abstract partial parse function.
* An open `*os.File` is a byte content together with a read position; `Stat`
  on this pure file model always succeeds and reports the content length,
  and reads always succeed.
* The `listener` callback of `UploadFile` is modelled by recording the
  sequence of arguments it is invoked with; `UploadFileResult.reportedBytes`
  is that trace, in invocation order.
-/

abbrev Str : Type := List Char

abbrev GoMap : Type := List (Str × Str)

/-- Go map indexing with the comma-ok form: `some v` when the key is present. -/
def goGet? (m : GoMap) (k : Str) : Option Str :=
  (m.find? (fun p => p.1 = k)).map (fun p => p.2)

/-- Go map indexing `m[k]`: the zero value (empty string) when the key is absent. -/
def goGetD (m : GoMap) (k : Str) : Str :=
  (goGet? m k).getD []

/-- Go `strings.HasPrefix`. -/
def goHasPrefix (s pre : Str) : Bool :=
  pre.isPrefixOf s

/-- Go `strings.TrimPrefix`: removes the leading prefix when present. -/
def goTrimPrefix (s pre : Str) : Str :=
  if pre.isPrefixOf s then s.drop pre.length else s

/-- Go `strings.ToUpper` (the keys this program upper-cases are ASCII). -/
def goToUpper (s : Str) : Str :=
  s.map Char.toUpper

/-- Constant `URLProp = "https.url"` from the source. -/
def URLProp : Str := "https.url".data

/-- Constant `MethodProp = "https.method"` from the source. -/
def MethodProp : Str := "https.method".data

/-- Constant `HeadersPrefix = "https.header."` from the source. -/
def HeadersPrefix : Str := "https.header.".data

/-- Constant `ContentMD5 = "Content-MD5"` from the source. -/
def ContentMD5 : Str := "Content-MD5".data

/-- ExtractDictionary from the source: for every key of `options` that has
the given prefix, the result maps the key with the prefix stripped to the
original value. The Go `for … range` loop over a map with unique keys that
inserts into a fresh map is modelled as `filterMap` over the entry list. -/
def ExtractDictionary (options : GoMap) (pre : Str) : GoMap :=
  options.filterMap (fun kv =>
    if goHasPrefix kv.1 pre then some (goTrimPrefix kv.1 pre, kv.2) else none)

/-- Alphabet of Go `encoding/base64.StdEncoding`. -/
def base64Table : Str :=
  "ABCDEFGHIJKLMNOPQRSTUVWXYZabcdefghijklmnopqrstuvwxyz0123456789+/".data

/-- Character of the standard base64 alphabet at a 6-bit index. -/
def base64Char (n : Nat) : Char :=
  base64Table.getD n (Char.ofNat 65)

/-- Go `base64.StdEncoding.EncodeToString` on a byte list, with padding. -/
def base64Encode : List Nat → Str
  | [] => []
  | [b0] =>
      [base64Char (b0 / 4), base64Char (b0 % 4 * 16), Char.ofNat 61, Char.ofNat 61]
  | [b0, b1] =>
      [base64Char (b0 / 4), base64Char (b0 % 4 * 16 + b1 / 16),
       base64Char (b1 % 16 * 4), Char.ofNat 61]
  | b0 :: b1 :: b2 :: rest =>
      base64Char (b0 / 4) :: base64Char (b0 % 4 * 16 + b1 / 16) ::
      base64Char (b1 % 16 * 4 + b2 / 64) :: base64Char (b2 % 64) ::
      base64Encode rest

/-- Valid header-field byte as in Go `net/textproto` (letters, digits and
the specials of the token alphabet). -/
def validHeaderFieldChar (c : Char) : Bool :=
  c.isAlpha || c.isDigit ||
    (([33, 35, 36, 37, 38, 39, 42, 43, 45, 46, 94, 95, 96, 124, 126].map
      Char.ofNat).contains c)

/-- Canonicalisation pass of `textproto.CanonicalMIMEHeaderKey`: upper-case
a letter at the start or after a hyphen, lower-case elsewhere. -/
def canonicalChars : Bool → Str → Str
  | _, [] => []
  | upper, c :: rest =>
      (if upper then c.toUpper else c.toLower) ::
        canonicalChars (c = Char.ofNat 45) rest

/-- Go `textproto.CanonicalMIMEHeaderKey`: canonicalise a valid key, return
an invalid key unchanged. -/
def canonicalMIMEHeaderKey (s : Str) : Str :=
  if s.all validHeaderFieldChar then canonicalChars true s else s

/-- Go `http.Header.Set`: store the value under the canonical key,
replacing any previous value. Shadowing via cons together with
first-match lookup realises the replacement. -/
def headerSet (h : GoMap) (k v : Str) : GoMap :=
  (canonicalMIMEHeaderKey k, v) :: h

/-- Go `http.Header.Get`: look up under the canonical key. -/
def headerGet (h : GoMap) (k : Str) : Option Str :=
  goGet? h (canonicalMIMEHeaderKey k)

/-- An open `*os.File`: its byte content and the current read position. -/
structure GoFile where
  content : List Nat
  pos : Nat
deriving DecidableEq

/-- Reading a file handle to the end yields the content from the current
position on. -/
def readAll (f : GoFile) : List Nat :=
  f.content.drop f.pos

/-- Filesystem passed to the embedding: path to file content, `none` when
the file is unreadable. -/
abbrev FS : Type := Str → Option Str

/-- One entry of Go `tls.CipherSuites()`. -/
structure CipherSuite where
  id : Nat
  name : Str
deriving DecidableEq

/-- SupportedCipherSuites from the source: the ids of the platform's secure
TLS cipher suites. The platform list `tls.CipherSuites()` is an explicit
argument of the embedding. -/
def SupportedCipherSuites (tlsCipherSuites : List CipherSuite) : List Nat :=
  tlsCipherSuites.map (fun c => c.id)

/-- Error values the embedded functions can return, one constructor per
distinct failure site of the source. `nilPanic` marks the nil dereference
that the source would perform if `url.Parse` failed after
`http.NewRequest` succeeded. -/
inductive UploadError where
  | configurationError (msg : Str)
  | urlParseError
  | nilPanic
  | ioError (path : Str)
  | networkError (msg : Str)
  | uploadFailedError (code : Int) (status : Str)
deriving DecidableEq

/-- HTTPUploader structure from the source. -/
structure HTTPUploader where
  url : Str
  headers : GoMap
  method : Str
  serverCert : Str
  cipherSuites : List Nat
deriving DecidableEq

/-- NewHTTPUploader from the source: validate the URL option, default and
upper-case the method, extract the custom headers, store the cipher ids. -/
def NewHTTPUploader (platformSuites : List CipherSuite) (options : GoMap)
    (serverCert : Str) : Except UploadError HTTPUploader :=
  let url := goGetD options URLProp
  if url = [] then
    .error (.configurationError ("upload URL not specified".data))
  else
    let method :=
      match goGet? options MethodProp with
      | none => "PUT".data
      | some m => goToUpper m
    if method ≠ "PUT".data ∧ method ≠ "POST".data then
      .error (.configurationError ("unsupported HTTP method: ".data ++ method))
    else
      .ok ⟨url, ExtractDictionary options HeadersPrefix, method, serverCert,
           SupportedCipherSuites platformSuites⟩

/-- Go `tls.Config` restricted to the fields the source sets. `rootCAs`
models the `x509.CertPool`: `none` is a nil pool (system trust store),
`some pem` a pool built from the PEM bytes read from the CA file. -/
structure TLSConfig where
  insecureSkipVerify : Bool
  rootCAs : Option Str
  minVersion : Nat
  maxVersion : Nat
  cipherSuites : List Nat
deriving DecidableEq

/-- Go `tls.VersionTLS12`. -/
def VersionTLS12 : Nat := 0x0303

/-- Go `tls.VersionTLS13`. -/
def VersionTLS13 : Nat := 0x0304

/-- Go `http.Transport` restricted to the field the source sets; the zero
transport has a nil TLS client config. -/
structure HTTPTransport where
  tlsClientConfig : Option TLSConfig
deriving DecidableEq

/-- getHTTPTransport from the source: read the CA file when a path is
configured (failing with the read error), then build the pinned TLS
configuration. -/
def getHTTPTransport (u : HTTPUploader) (fs : FS) : Except UploadError HTTPTransport :=
  if u.serverCert.length > 0 then
    match fs u.serverCert with
    | none => .error (.ioError u.serverCert)
    | some caCert =>
        .ok ⟨some ⟨false, some caCert, VersionTLS12, VersionTLS13, u.cipherSuites⟩⟩
  else
    .ok ⟨some ⟨false, none, VersionTLS12, VersionTLS13, u.cipherSuites⟩⟩

/-- ComputeMD5 from the source: digest the file from its current position to
the end, seek back to the start, and optionally base64-encode the digest.
`md5digest` is the abstract `crypto/md5` hash; reads on the pure file model
always succeed. -/
def ComputeMD5 (md5digest : List Nat → List Nat) (f : GoFile)
    (encodeBase64 : Bool) : Str × GoFile :=
  let digest := md5digest (f.content.drop f.pos)
  let f2 : GoFile := ⟨f.content, 0⟩
  if encodeBase64 then (base64Encode digest, f2) else (digest.map Char.ofNat, f2)

/-- Parsed URL restricted to the field the source reads. -/
structure URL where
  scheme : Str
deriving DecidableEq

/-- Outbound `http.Request` restricted to the fields the source sets; the
body is the file handle the request will stream. -/
structure Request where
  method : Str
  url : Str
  header : GoMap
  contentLength : Int
  body : GoFile
deriving DecidableEq

/-- Go `http.NewRequest`: parses the URL (the same parse that
`url.Parse` performs later) and fails when parsing fails. -/
def httpNewRequest (parseURL : Str → Option URL) (method u : Str)
    (body : GoFile) : Except UploadError Request :=
  match parseURL u with
  | none => .error .urlParseError
  | some _ => .ok ⟨method, u, [], 0, body⟩

/-- Response to an executed request, restricted to the fields the source
reads. -/
structure HTTPResponse where
  statusCode : Int
  status : Str
deriving DecidableEq

/-- Request-building phase of UploadFile, in source order: stat the file,
build the request, parse the URL (nil-dereferencing on failure), choose the
transport by scheme, set the fixed content type, overlay the custom
headers, optionally compute and attach the checksum, and set the declared
content length. Returns the request as it is handed to `client.Do`
together with the chosen transport. -/
def uploadRequest (u : HTTPUploader) (parseURL : Str → Option URL) (fs : FS)
    (md5digest : List Nat → List Nat) (file : GoFile) (useChecksum : Bool) :
    Except UploadError (Request × HTTPTransport) :=
  let size : Int := file.content.length
  match httpNewRequest parseURL u.method u.url file with
  | .error e => .error e
  | .ok req0 =>
    match parseURL u.url with
    | none => .error .nilPanic
    | some parsedURL =>
      let transportRes : Except UploadError HTTPTransport :=
        if parsedURL.scheme = "https".data then getHTTPTransport u fs
        else .ok ⟨none⟩
      match transportRes with
      | .error e => .error e
      | .ok transport =>
        let req1 : Request :=
          { req0 with header := headerSet req0.header ("Content-Type".data)
                                  ("application/x-binary".data) }
        let req2 : Request :=
          u.headers.foldl (fun r kv => { r with header := headerSet r.header kv.1 kv.2 }) req1
        let req3 : Request :=
          if useChecksum then
            let md5res := ComputeMD5 md5digest file true
            { req2 with header := headerSet req2.header ContentMD5 md5res.1,
                        body := md5res.2 }
          else req2
        .ok ({ req3 with contentLength := size }, transport)

instance {ε α : Type} [DecidableEq ε] [DecidableEq α] : DecidableEq (Except ε α) := fun a b =>
  match a, b with
  | .error x, .error y => decidable_of_iff (x = y) (by simp)
  | .ok x, .ok y => decidable_of_iff (x = y) (by simp)
  | .error _, .ok _ => isFalse (fun h => Except.noConfusion h)
  | .ok _, .error _ => isFalse (fun h => Except.noConfusion h)

/-- Outcome of an UploadFile call: the returned error value and the trace
of arguments the `listener` callback was invoked with. -/
structure UploadFileResult where
  result : Except UploadError Unit
  reportedBytes : List Int
deriving DecidableEq

/-- UploadFile from the source: build the request (see `uploadRequest`),
execute it over the chosen transport (`doRequest` is the network), and
classify the response status, succeeding exactly on 2xx. The source never
invokes the `listener` callback, so the recorded trace is empty on every
path. -/
def UploadFile (u : HTTPUploader) (parseURL : Str → Option URL) (fs : FS)
    (md5digest : List Nat → List Nat)
    (doRequest : HTTPTransport → Request → Except UploadError HTTPResponse)
    (file : GoFile) (useChecksum : Bool) : UploadFileResult :=
  match uploadRequest u parseURL fs md5digest file useChecksum with
  | .error e => ⟨.error e, []⟩
  | .ok (req, transport) =>
    match doRequest transport req with
    | .error e => ⟨.error e, []⟩
    | .ok resp =>
      if resp.statusCode < 200 ∨ resp.statusCode > 299 then
        ⟨.error (.uploadFailedError resp.statusCode resp.status), []⟩
      else
        ⟨.ok (), []⟩

/-- True exactly when a result is the nil-dereference marker error. -/
def isNilPanic {α : Type} : Except UploadError α → Bool
  | .error .nilPanic => true
  | _ => false

/-- Concrete stand-in for the abstract `crypto/md5` digest function. -/
def md5zero : List Nat → List Nat := fun _ => List.replicate 16 0

/-- Concrete parse function whose results have scheme `http`. -/
def parseHTTP : Str → Option URL := fun _ => some ⟨"http".data⟩

/-- Concrete parse function whose results have scheme `https`. -/
def parseHTTPS : Str → Option URL := fun _ => some ⟨"https".data⟩

/-- Concrete filesystem with no readable files. -/
def fsNone : FS := fun _ => none

/-- Concrete network returning status 200 to every request. -/
def do200 : HTTPTransport → Request → Except UploadError HTTPResponse :=
  fun _ _ => .ok ⟨200, "200 OK".data⟩

/-- Concrete network returning status 503 to every request. -/
def do503 : HTTPTransport → Request → Except UploadError HTTPResponse :=
  fun _ _ => .ok ⟨503, "503 Service Unavailable".data⟩

/-- Concrete one-byte file. -/
def fileA : GoFile := ⟨[97], 0⟩

/-- Concrete uploader for a plain `http` destination. -/
def uHTTP : HTTPUploader := ⟨"http://e".data, [], "PUT".data, [], []⟩

/-- Concrete uploader for an `https` destination with no CA path. -/
def uTLS : HTTPUploader := ⟨"https://e".data, [], "PUT".data, [], []⟩

/-- Concrete uploader for an `https` destination with a CA path. -/
def uTLSCA : HTTPUploader := ⟨"https://e".data, [], "PUT".data, "ca.pem".data, []⟩

/-- Transport built for `uTLS` over any filesystem. -/
def tTLS : HTTPTransport := ⟨some ⟨false, none, VersionTLS12, VersionTLS13, []⟩⟩

/-- Concrete option map missing the URL key. -/
def opts3a : GoMap := [(MethodProp, "PUT".data)]

/-- Concrete option map with an unsupported method. -/
def opts3b : GoMap := [(URLProp, "http://e".data), (MethodProp, "DELETE".data)]

/-- Concrete option map with no method key. -/
def opts3c : GoMap := [(URLProp, "http://e".data)]

/-- Concrete option map with a lower-case method. -/
def opts3d : GoMap := [(URLProp, "http://e".data), (MethodProp, "post".data)]

/-- Concrete option map whose method key is present with an empty value. -/
def opts8 : GoMap := [(URLProp, "http://e".data), (MethodProp, [])]

/-- Concrete option map with one prefixed and one unprefixed key. -/
def opts7 : GoMap :=
  [( HeadersPrefix ++ "X-Foo".data, "1".data), ("other".data, "2".data)]

/-- Concrete option map whose header key equals the prefix exactly. -/
def opts9 : GoMap := [(URLProp, "http://e".data), ( HeadersPrefix, "val".data)]

/-- Uploader constructed from `opts9`. -/
def u9 : HTTPUploader := ⟨"http://e".data, [([], "val".data)], "PUT".data, [], []⟩

/-- Concrete option map configuring a custom Content-MD5 header whose value
coincides with the digest of the one-byte file. -/
def optsC5 : GoMap :=
  [(URLProp, "http://e".data),
   ( HeadersPrefix ++ ContentMD5, base64Encode (md5zero [97]))]

/-- Uploader constructed from `optsC5`. -/
def uC5 : HTTPUploader :=
  ⟨"http://e".data, [(ContentMD5, base64Encode (md5zero [97]))], "PUT".data, [], []⟩

/-- Request built by `uHTTP` for `fileA` without checksum. -/
def reqPlain : Request :=
  ⟨"PUT".data, "http://e".data,
   [("Content-Type".data, "application/x-binary".data)], 1, ⟨[97], 0⟩⟩

/-- Request built by `uHTTP` for `fileA` with checksum. -/
def reqChk : Request :=
  ⟨"PUT".data, "http://e".data,
   [("Content-Md5".data, base64Encode (md5zero [97])),
    ("Content-Type".data, "application/x-binary".data)], 1, ⟨[97], 0⟩⟩

theorem goGet?_cons (a b : Str) (m : GoMap) (k : Str) :
    goGet? ((a, b) :: m) k = if a = k then some b else goGet? m k := by
  by_cases h : a = k <;> simp [goGet?, List.find?, h]

theorem append_goTrimPrefix (pre s : Str) (h : goHasPrefix s pre = true) :
    pre ++ goTrimPrefix s pre = s := by
  unfold goHasPrefix at h
  unfold goTrimPrefix
  rw [if_pos h]
  exact List.prefix_iff_eq_append.mp (List.isPrefixOf_iff_prefix.mp h)

theorem extractDictionary_lookup (pre : Str) :
    ∀ (l : GoMap) (k v : Str), (l.map Prod.fst).Nodup → (k, v) ∈ l →
      goHasPrefix k pre = true →
      goGet? (ExtractDictionary l pre) (goTrimPrefix k pre) = some v := by
  intro l
  induction l with
  | nil => intro k v _ hmem _; cases hmem
  | cons p t ih =>
    intro k v hnd hmem hpre
    obtain ⟨p1, p2⟩ := p
    rw [List.map_cons, List.nodup_cons] at hnd
    obtain ⟨hnotin, hndt⟩ := hnd
    rcases List.mem_cons.mp hmem with heq | htail
    · injection heq with h1 h2
      subst h1
      subst h2
      simp only [ExtractDictionary, List.filterMap_cons, hpre, if_pos]
      rw [goGet?_cons]
      simp [ExtractDictionary]
    · have hkmem : k ∈ t.map Prod.fst := List.mem_map_of_mem Prod.fst htail
      by_cases hp : goHasPrefix p1 pre
      · have hne : ¬ (goTrimPrefix p1 pre = goTrimPrefix k pre) := by
          intro hEq
          have e1 : p1 = k := by
            rw [← append_goTrimPrefix pre p1 hp, hEq, append_goTrimPrefix pre k hpre]
          exact hnotin (e1 ▸ hkmem)
        simp only [ExtractDictionary, List.filterMap_cons, hp, if_pos]
        rw [goGet?_cons, if_neg hne]
        exact ih k v hndt htail hpre
      · simp only [ExtractDictionary, List.filterMap_cons]
        rw [if_neg hp]
        exact ih k v hndt htail hpre

theorem extractDictionary_source (l : GoMap) (pre k v : Str)
    (h : (k, v) ∈ ExtractDictionary l pre) : (pre ++ k, v) ∈ l := by
  simp only [ExtractDictionary, List.mem_filterMap] at h
  obtain ⟨⟨a, b⟩, hab, hf⟩ := h
  by_cases hp : goHasPrefix a pre
  · rw [if_pos hp] at hf
    injection hf with hf
    injection hf with h1 h2
    subst h2
    rw [← h1, append_goTrimPrefix pre a hp]
    exact hab
  · rw [if_neg hp] at hf
    cases hf

theorem headerGet_set (h : GoMap) (a v k : Str) :
    headerGet (headerSet h a v) k =
      if canonicalMIMEHeaderKey a = canonicalMIMEHeaderKey k then some v
      else headerGet h k := by
  simp only [headerGet, headerSet, goGet?_cons]

theorem foldl_set_header_eq (hs : GoMap) :
    ∀ (r : Request),
      (hs.foldl (fun r kv => { r with header := headerSet r.header kv.1 kv.2 }) r).header
        = hs.foldl (fun h kv => headerSet h kv.1 kv.2) r.header := by
  induction hs with
  | nil => intro r; rfl
  | cons kv t ih =>
    intro r
    simpa using ih { r with header := headerSet r.header kv.1 kv.2 }

theorem headerGet_foldl_not_mem (k : Str) (hs : GoMap) :
    ∀ (h : GoMap),
      (∀ kv ∈ hs, canonicalMIMEHeaderKey kv.1 ≠ canonicalMIMEHeaderKey k) →
      headerGet (hs.foldl (fun h kv => headerSet h kv.1 kv.2) h) k = headerGet h k := by
  induction hs with
  | nil => intro h _; rfl
  | cons kv t ih =>
    intro h hnone
    have ht := ih (headerSet h kv.1 kv.2) (fun kv2 hm => hnone kv2 (List.mem_cons_of_mem kv hm))
    rw [List.foldl_cons, ht, headerGet_set, if_neg (hnone kv (List.mem_cons_self kv t))]

theorem headerGet_foldl_cases (k : Str) (hs : GoMap) :
    ∀ (h : GoMap),
      headerGet (hs.foldl (fun h kv => headerSet h kv.1 kv.2) h) k = headerGet h k
      ∨ ∃ kv, kv ∈ hs ∧ canonicalMIMEHeaderKey kv.1 = canonicalMIMEHeaderKey k
          ∧ headerGet (hs.foldl (fun h kv => headerSet h kv.1 kv.2) h) k = some kv.2 := by
  induction hs with
  | nil => intro h; exact Or.inl rfl
  | cons kv t ih =>
    intro h
    rw [List.foldl_cons]
    rcases ih (headerSet h kv.1 kv.2) with heq | ⟨kv2, hm, hc, heq⟩
    · by_cases hc : canonicalMIMEHeaderKey kv.1 = canonicalMIMEHeaderKey k
      · exact Or.inr ⟨kv, List.mem_cons_self kv t, hc, by rw [heq, headerGet_set, if_pos hc]⟩
      · exact Or.inl (by rw [heq, headerGet_set, if_neg hc])
    · exact Or.inr ⟨kv2, List.mem_cons_of_mem kv hm, hc, heq⟩

/-- C3: NewHTTPUploader fails with the "upload URL not specified"
configuration error when the URL option is missing or empty; fails with the
"unsupported HTTP method" configuration error naming the upper-cased value
when a present method upper-cases to neither PUT nor POST; and for a
non-empty URL it succeeds with stored method `PUT` when the method key is
absent, and with the upper-cased method when the method upper-cases to PUT
or POST. -/
theorem newHTTPUploader_validation (suites : List CipherSuite) (options : GoMap)
    (cert : Str) :
    (goGetD options URLProp = [] →
      NewHTTPUploader suites options cert =
        .error (.configurationError ("upload URL not specified".data)))
    ∧ (∀ m, goGetD options URLProp ≠ [] → goGet? options MethodProp = some m →
        goToUpper m ≠ "PUT".data → goToUpper m ≠ "POST".data →
        NewHTTPUploader suites options cert =
          .error (.configurationError ("unsupported HTTP method: ".data ++ goToUpper m)))
    ∧ (goGetD options URLProp ≠ [] → goGet? options MethodProp = none →
        NewHTTPUploader suites options cert =
          .ok ⟨goGetD options URLProp, ExtractDictionary options HeadersPrefix,
               "PUT".data, cert, SupportedCipherSuites suites⟩)
    ∧ (∀ m, goGetD options URLProp ≠ [] → goGet? options MethodProp = some m →
        goToUpper m = "PUT".data ∨ goToUpper m = "POST".data →
        NewHTTPUploader suites options cert =
          .ok ⟨goGetD options URLProp, ExtractDictionary options HeadersPrefix,
               goToUpper m, cert, SupportedCipherSuites suites⟩) := by
  refine ⟨?_, ?_, ?_, ?_⟩
  · intro h
    simp [NewHTTPUploader, h]
  · intro m hurl hm hput hpost
    simp only [NewHTTPUploader, hm]
    rw [if_neg hurl, if_pos ⟨hput, hpost⟩]
  · intro hurl hm
    simp only [NewHTTPUploader, hm]
    rw [if_neg hurl, if_neg (by decide)]
  · intro m hurl hm hok
    simp only [NewHTTPUploader, hm]
    rcases hok with h | h
    · rw [if_neg hurl, if_neg (fun hc => hc.1 h)]
    · rw [if_neg hurl, if_neg (fun hc => hc.2 h)]

theorem newHTTPUploader_validation_witness :
    NewHTTPUploader [] opts3a [] =
      .error (.configurationError ("upload URL not specified".data))
    ∧ NewHTTPUploader [] opts3b [] =
      .error (.configurationError
        ("unsupported HTTP method: ".data ++ goToUpper ("DELETE".data)))
    ∧ NewHTTPUploader [] opts3c [] =
      .ok ⟨goGetD opts3c URLProp, ExtractDictionary opts3c HeadersPrefix,
           "PUT".data, [], SupportedCipherSuites []⟩
    ∧ NewHTTPUploader [] opts3d [] =
      .ok ⟨goGetD opts3d URLProp, ExtractDictionary opts3d HeadersPrefix,
           goToUpper ("post".data), [], SupportedCipherSuites []⟩ :=
  ⟨(newHTTPUploader_validation [] opts3a []).1 (by decide),
   (newHTTPUploader_validation [] opts3b []).2.1 ("DELETE".data)
     (by decide) (by decide) (by decide) (by decide),
   (newHTTPUploader_validation [] opts3c []).2.2.1 (by decide) (by decide),
   (newHTTPUploader_validation [] opts3d []).2.2.2 ("post".data)
     (by decide) (by decide) (Or.inr (by decide))⟩

/-- C8: when the method option key is present with an empty-string value,
NewHTTPUploader does not default to PUT but fails with the
unsupported-method configuration error whose message names the empty
method. -/
theorem newHTTPUploader_empty_method (suites : List CipherSuite) (options : GoMap)
    (cert : Str)
    (hm : goGet? options MethodProp = some [])
    (hurl : goGetD options URLProp ≠ []) :
    NewHTTPUploader suites options cert =
      .error (.configurationError ("unsupported HTTP method: ".data)) := by
  simp only [NewHTTPUploader, hm]
  rw [if_neg hurl, if_pos (by decide)]
  simp [goToUpper]

theorem newHTTPUploader_empty_method_witness :
    NewHTTPUploader [] opts8 [] =
      .error (.configurationError ("unsupported HTTP method: ".data)) :=
  newHTTPUploader_empty_method [] opts8 [] (by decide) (by decide)

/-- C9: when an option key equals the header prefix exactly,
ExtractDictionary produces an entry under the empty-string name, and the
constructed uploader's header map therefore contains the empty-string
header name mapped to that key's value. -/
theorem newHTTPUploader_empty_header_name (suites : List CipherSuite) (options : GoMap)
    (cert : Str) (v : Str) (u : HTTPUploader)
    (hnd : (options.map Prod.fst).Nodup)
    (hmem : ( HeadersPrefix, v) ∈ options)
    (hok : NewHTTPUploader suites options cert = .ok u) :
    goGet? u.headers [] = some v := by
  have hh : u.headers = ExtractDictionary options HeadersPrefix := by
    simp only [NewHTTPUploader] at hok
    split at hok
    · cases hok
    · split at hok
      · cases hok
      · injection hok with h
        rw [← h]
  rw [hh]
  have h0 : goHasPrefix HeadersPrefix HeadersPrefix = true := by decide
  have hl := extractDictionary_lookup HeadersPrefix options HeadersPrefix v hnd hmem h0
  have ht : goTrimPrefix HeadersPrefix HeadersPrefix = ([] : Str) := by decide
  rwa [ht] at hl

theorem newHTTPUploader_empty_header_name_witness :
    goGet? u9.headers [] = some ("val".data) :=
  newHTTPUploader_empty_header_name [] opts9 [] ("val".data) u9
    (by decide) (by decide) (by decide)

/-- C7: ExtractDictionary maps every input key that begins with the prefix,
with the prefix stripped, to its original value, and every entry of the
result comes from an input key that begins with the prefix. -/
theorem extractDictionary_spec (options : GoMap) (pre : Str)
    (hnd : (options.map Prod.fst).Nodup) :
    (∀ k v, (k, v) ∈ options → goHasPrefix k pre = true →
        goGet? (ExtractDictionary options pre) (goTrimPrefix k pre) = some v)
    ∧ (∀ k v, (k, v) ∈ ExtractDictionary options pre →
        (pre ++ k, v) ∈ options ∧ goHasPrefix (pre ++ k) pre = true) := by
  constructor
  · intro k v hmem hpre
    exact extractDictionary_lookup pre options k v hnd hmem hpre
  · intro k v hmem
    refine ⟨extractDictionary_source options pre k v hmem, ?_⟩
    unfold goHasPrefix
    exact List.isPrefixOf_iff_prefix.mpr (List.prefix_append pre k)

theorem extractDictionary_spec_witness :
    goGet? (ExtractDictionary opts7 HeadersPrefix)
        (goTrimPrefix ( HeadersPrefix ++ "X-Foo".data) HeadersPrefix)
      = some ("1".data) :=
  (extractDictionary_spec opts7 HeadersPrefix (by decide)).1
    ( HeadersPrefix ++ "X-Foo".data) ("1".data) (by decide) (by decide)

/-- C6: ComputeMD5 leaves the file's read position at the beginning, so a
subsequent full read yields the complete original content, and running it
twice on the same handle (initially positioned at the start) yields the
same digest. -/
theorem computeMD5_deterministic_and_rewinds (md5digest : List Nat → List Nat)
    (f : GoFile) (b : Bool) (h : f.pos = 0) :
    (ComputeMD5 md5digest f b).2.pos = 0
    ∧ readAll (ComputeMD5 md5digest f b).2 = f.content
    ∧ (ComputeMD5 md5digest ((ComputeMD5 md5digest f b).2) b).1
        = (ComputeMD5 md5digest f b).1 := by
  cases b <;> simp [ComputeMD5, readAll, h]

theorem computeMD5_deterministic_and_rewinds_witness :
    (ComputeMD5 md5zero ⟨[97, 98], 0⟩ true).2.pos = 0
    ∧ readAll (ComputeMD5 md5zero ⟨[97, 98], 0⟩ true).2 = [97, 98]
    ∧ (ComputeMD5 md5zero ((ComputeMD5 md5zero ⟨[97, 98], 0⟩ true).2) true).1
        = (ComputeMD5 md5zero ⟨[97, 98], 0⟩ true).1 :=
  computeMD5_deterministic_and_rewinds md5zero ⟨[97, 98], 0⟩ true rfl

theorem getHTTPTransport_error_io (u : HTTPUploader) (fs : FS) (e : UploadError)
    (h : getHTTPTransport u fs = .error e) : e = .ioError u.serverCert := by
  unfold getHTTPTransport at h
  split at h
  · cases hfs : fs u.serverCert
    · rw [hfs] at h
      injection h with h2
      exact h2.symm
    · rw [hfs] at h
      cases h
  · cases h

/-- C1: the source never invokes the `listener` callback: the recorded
sequence of progress reports is empty on every call, and in particular a
successful upload of a one-byte file reports a sequence that does not end
at the file size. -/
theorem uploadFile_progress_never_reported :
    (∀ (u : HTTPUploader) (parseURL : Str → Option URL) (fs : FS)
        (md5digest : List Nat → List Nat)
        (doRequest : HTTPTransport → Request → Except UploadError HTTPResponse)
        (file : GoFile) (useChecksum : Bool),
        (UploadFile u parseURL fs md5digest doRequest file useChecksum).reportedBytes = [])
    ∧ (UploadFile uHTTP parseHTTP fsNone md5zero do200 fileA false).result = .ok ()
    ∧ (UploadFile uHTTP parseHTTP fsNone md5zero do200 fileA false).reportedBytes = []
    ∧ fileA.content.length = 1 := by
  refine ⟨?_, by decide, by decide, by decide⟩
  intro u parseURL fs md5digest doRequest file useChecksum
  unfold UploadFile
  split
  · rfl
  · split
    · rfl
    · split <;> rfl

/-- C2: when the request phase succeeds and the network yields a response,
UploadFile returns the upload-failed error carrying the response's numeric
status code and status text exactly when the status code lies outside the
inclusive range 200..299, and returns success exactly when it lies inside
that range. -/
theorem uploadFile_status_classification (u : HTTPUploader)
    (parseURL : Str → Option URL) (fs : FS) (md5digest : List Nat → List Nat)
    (doRequest : HTTPTransport → Request → Except UploadError HTTPResponse)
    (file : GoFile) (useChecksum : Bool) (req : Request) (tr : HTTPTransport)
    (resp : HTTPResponse)
    (hreq : uploadRequest u parseURL fs md5digest file useChecksum = .ok (req, tr))
    (hresp : doRequest tr req = .ok resp) :
    ((UploadFile u parseURL fs md5digest doRequest file useChecksum).result
        = .error (.uploadFailedError resp.statusCode resp.status)
      ↔ (resp.statusCode < 200 ∨ resp.statusCode > 299))
    ∧ ((UploadFile u parseURL fs md5digest doRequest file useChecksum).result = .ok ()
      ↔ (200 ≤ resp.statusCode ∧ resp.statusCode ≤ 299)) := by
  unfold UploadFile
  rw [hreq]
  simp only [hresp]
  by_cases hc : resp.statusCode < 200 ∨ resp.statusCode > 299
  · rw [if_pos hc]
    refine ⟨by simp [hc], ?_⟩
    constructor
    · intro h
      cases h
    · intro h
      exfalso
      rcases hc with hc | hc <;> omega
  · rw [if_neg hc]
    push_neg at hc
    constructor
    · constructor
      · intro h
        cases h
      · intro h
        exfalso
        rcases h with h | h <;> omega
    · exact ⟨fun _ => hc, fun _ => rfl⟩

theorem uploadFile_status_classification_witness :
    ((UploadFile uHTTP parseHTTP fsNone md5zero do503 fileA false).result
        = .error (.uploadFailedError 503 ("503 Service Unavailable".data))
      ↔ ((503 : Int) < 200 ∨ (503 : Int) > 299))
    ∧ ((UploadFile uHTTP parseHTTP fsNone md5zero do503 fileA false).result = .ok ()
      ↔ ((200 : Int) ≤ 503 ∧ (503 : Int) ≤ 299)) :=
  uploadFile_status_classification uHTTP parseHTTP fsNone md5zero do503 fileA false
    reqPlain ⟨none⟩ ⟨503, "503 Service Unavailable".data⟩ (by decide) rfl

/-- C10: the nil dereference of the discarded `url.Parse` result inside
UploadFile's request phase is unreachable: the request construction
(`http.NewRequest`) parses the same URL first, so whenever it succeeds the
later parse also succeeds, and the marker error for the dereference is
never returned. -/
theorem uploadFile_parse_deref_safe (u : HTTPUploader) (parseURL : Str → Option URL)
    (fs : FS) (md5digest : List Nat → List Nat) (file : GoFile) (useChecksum : Bool) :
    isNilPanic (uploadRequest u parseURL fs md5digest file useChecksum) = false
    ∧ (∀ r, httpNewRequest parseURL u.method u.url file = .ok r →
        (parseURL u.url).isSome = true) := by
  constructor
  · cases hp : parseURL u.url with
    | none => simp [uploadRequest, httpNewRequest, hp, isNilPanic]
    | some pu =>
      by_cases hs : pu.scheme = "https".data
      · simp only [uploadRequest, httpNewRequest, hp, hs, if_true, eq_self_iff_true]
        cases ht : getHTTPTransport u fs with
        | error e =>
          have he := getHTTPTransport_error_io u fs e ht
          subst he
          simp [isNilPanic]
        | ok t => simp [isNilPanic]
      · simp [uploadRequest, httpNewRequest, hp, hs, isNilPanic]
  · intro r hr
    cases hp : parseURL u.url with
    | none =>
      rw [httpNewRequest, hp] at hr
      cases hr
    | some pu => rfl

theorem uploadFile_parse_deref_safe_witness :
    isNilPanic (uploadRequest uHTTP parseHTTP fsNone md5zero fileA false) = false
    ∧ (parseHTTP uHTTP.url).isSome = true :=
  ⟨(uploadFile_parse_deref_safe uHTTP parseHTTP fsNone md5zero fileA false).1,
   (uploadFile_parse_deref_safe uHTTP parseHTTP fsNone md5zero fileA false).2
     ⟨"PUT".data, "http://e".data, [], 0, fileA⟩ (by decide)⟩

/-- C4: every transport getHTTPTransport builds pins the TLS version range
to 1.2..1.3, keeps certificate verification enabled, restricts the cipher
suites to the uploader's precomputed set, and leaves the trust pool unset
when no CA path is configured; and when a configured CA file is unreadable,
UploadFile on an https URL fails with the IO error for that path for every
possible network, i.e. before any request is executed. -/
theorem getHTTPTransport_tls_policy (u : HTTPUploader) (fs : FS) :
    (∀ t, getHTTPTransport u fs = .ok t →
        ∃ cfg, t.tlsClientConfig = some cfg
          ∧ cfg.minVersion = VersionTLS12
          ∧ cfg.maxVersion = VersionTLS13
          ∧ cfg.insecureSkipVerify = false
          ∧ cfg.cipherSuites = u.cipherSuites
          ∧ (u.serverCert = [] → cfg.rootCAs = none))
    ∧ (∀ (parseURL : Str → Option URL) (md5digest : List Nat → List Nat)
        (doRequest : HTTPTransport → Request → Except UploadError HTTPResponse)
        (file : GoFile) (useChecksum : Bool) (pu : URL),
        u.serverCert ≠ [] → fs u.serverCert = none →
        parseURL u.url = some pu → pu.scheme = "https".data →
        (UploadFile u parseURL fs md5digest doRequest file useChecksum).result
          = .error (.ioError u.serverCert)) := by
  constructor
  · intro t ht
    unfold getHTTPTransport at ht
    split at ht
    · rename_i hlen
      cases hfs : fs u.serverCert with
      | none =>
        rw [hfs] at ht
        cases ht
      | some ca =>
        rw [hfs] at ht
        injection ht with h
        subst h
        refine ⟨⟨false, some ca, VersionTLS12, VersionTLS13, u.cipherSuites⟩,
          rfl, rfl, rfl, rfl, rfl, ?_⟩
        intro he
        rw [he] at hlen
        exact absurd hlen (by decide)
    · injection ht with h
      subst h
      exact ⟨⟨false, none, VersionTLS12, VersionTLS13, u.cipherSuites⟩,
        rfl, rfl, rfl, rfl, rfl, fun _ => rfl⟩
  · intro parseURL md5digest doRequest file useChecksum pu hcert hfs hp hs
    have hlen : u.serverCert.length > 0 := List.length_pos.mpr hcert
    have htr : getHTTPTransport u fs = .error (.ioError u.serverCert) := by
      unfold getHTTPTransport
      rw [if_pos hlen, hfs]
    simp [UploadFile, uploadRequest, httpNewRequest, hp, hs, htr]

theorem getHTTPTransport_tls_policy_witness :
    (∃ cfg, tTLS.tlsClientConfig = some cfg
      ∧ cfg.minVersion = VersionTLS12
      ∧ cfg.maxVersion = VersionTLS13
      ∧ cfg.insecureSkipVerify = false
      ∧ cfg.cipherSuites = uTLS.cipherSuites
      ∧ (uTLS.serverCert = [] → cfg.rootCAs = none))
    ∧ (UploadFile uTLSCA parseHTTPS fsNone md5zero do200 fileA false).result
      = .error (.ioError ("ca.pem".data)) :=
  ⟨(getHTTPTransport_tls_policy uTLS fsNone).1 tTLS (by decide),
   (getHTTPTransport_tls_policy uTLSCA fsNone).2 parseHTTPS md5zero do200 fileA false
     ⟨"https".data⟩ (by decide) rfl rfl rfl⟩

/-- C5 (counterexample to the claim as stated): with a custom header named
Content-MD5 configured whose value happens to equal the base64 digest of
the uploaded content, the request carries a Content-MD5 header with that
digest value even though the checksum flag was not requested, so the "only
if" direction of the claim fails. -/
theorem uploadRequest_md5_header_counterexample :
    NewHTTPUploader [] optsC5 [] = .ok uC5
    ∧ (uploadRequest uC5 parseHTTP fsNone md5zero fileA false).map
        (fun p => headerGet p.1.header ContentMD5)
      = .ok (some (base64Encode (md5zero (readAll fileA)))) := by
  exact ⟨by decide, by decide⟩

/-- C5 (amended): every request the request phase hands to the client
declares content length equal to the file size from the file metadata; its
Content-Type header is the fixed binary media type unless one of the
configured custom headers overrides it (custom headers are overlaid after
the fixed type is set); when the checksum flag is requested the
Content-MD5 header carries the base64-encoded digest of the file content;
and when the flag is not requested the Content-MD5 header is absent
provided no custom header with that canonical name was configured. -/
theorem uploadRequest_wire_contract (u : HTTPUploader) (parseURL : Str → Option URL)
    (fs : FS) (md5digest : List Nat → List Nat) (file : GoFile) (useChecksum : Bool)
    (req : Request) (tr : HTTPTransport)
    (hok : uploadRequest u parseURL fs md5digest file useChecksum = .ok (req, tr)) :
    req.contentLength = (file.content.length : Int)
    ∧ ((∀ kv ∈ u.headers,
          canonicalMIMEHeaderKey kv.1 ≠ canonicalMIMEHeaderKey ("Content-Type".data)) →
        headerGet req.header ("Content-Type".data) = some ("application/x-binary".data))
    ∧ (headerGet req.header ("Content-Type".data) = some ("application/x-binary".data)
        ∨ ∃ kv, kv ∈ u.headers
            ∧ canonicalMIMEHeaderKey kv.1 = canonicalMIMEHeaderKey ("Content-Type".data)
            ∧ headerGet req.header ("Content-Type".data) = some kv.2)
    ∧ (useChecksum = true →
        headerGet req.header ContentMD5
          = some (base64Encode (md5digest (readAll file))))
    ∧ (useChecksum = false →
        (∀ kv ∈ u.headers,
          canonicalMIMEHeaderKey kv.1 ≠ canonicalMIMEHeaderKey ContentMD5) →
        headerGet req.header ContentMD5 = none) := by
  cases hp : parseURL u.url with
  | none =>
    simp only [uploadRequest, httpNewRequest, hp] at hok
    cases hok
  | some pu =>
    simp only [uploadRequest, httpNewRequest, hp] at hok
    split at hok
    · cases hok
    · injection hok with h
      injection h with h1 h2
      subst h1
      have hMD5CT : canonicalMIMEHeaderKey ContentMD5
          ≠ canonicalMIMEHeaderKey ("Content-Type".data) := by decide
      have hCTMD5 : canonicalMIMEHeaderKey ("Content-Type".data)
          ≠ canonicalMIMEHeaderKey ContentMD5 := by decide
      refine ⟨rfl, ?_, ?_, ?_, ?_⟩
      · intro hno
        cases useChecksum with
        | false =>
          show headerGet _ _ = _
          simp only [Bool.false_eq_true, if_false, foldl_set_header_eq]
          rw [headerGet_foldl_not_mem _ _ _ hno, headerGet_set, if_pos rfl]
        | true =>
          show headerGet _ _ = _
          simp only [if_true, foldl_set_header_eq]
          rw [headerGet_set, if_neg hMD5CT,
            headerGet_foldl_not_mem _ _ _ hno, headerGet_set, if_pos rfl]
      · cases useChecksum with
        | false =>
          rcases headerGet_foldl_cases ("Content-Type".data) u.headers
              (headerSet [] ("Content-Type".data) ("application/x-binary".data))
            with hcase | hex
          · refine Or.inl ?_
            show headerGet _ _ = _
            simp only [Bool.false_eq_true, if_false, foldl_set_header_eq]
            rw [hcase, headerGet_set, if_pos rfl]
          · obtain hkv := hex.choose_spec
            refine Or.inr (Exists.intro hex.choose
              (And.intro hkv.1 (And.intro hkv.2.1 (?_ : headerGet _ _ = _))))
            simp only [Bool.false_eq_true, if_false, foldl_set_header_eq]
            exact hkv.2.2
        | true =>
          rcases headerGet_foldl_cases ("Content-Type".data) u.headers
              (headerSet [] ("Content-Type".data) ("application/x-binary".data))
            with hcase | hex
          · refine Or.inl ?_
            show headerGet _ _ = _
            simp only [if_true, foldl_set_header_eq]
            rw [headerGet_set, if_neg hMD5CT, hcase, headerGet_set, if_pos rfl]
          · obtain hkv := hex.choose_spec
            refine Or.inr (Exists.intro hex.choose
              (And.intro hkv.1 (And.intro hkv.2.1 (?_ : headerGet _ _ = _))))
            simp only [if_true, foldl_set_header_eq]
            rw [headerGet_set, if_neg hMD5CT]
            exact hkv.2.2
      · cases useChecksum with
        | false => intro h3; cases h3
        | true =>
          intro _
          show headerGet _ _ = _
          simp only [if_true]
          rw [headerGet_set, if_pos rfl]
          simp [ComputeMD5, readAll]
      · cases useChecksum with
        | true => intro h4; cases h4
        | false =>
          intro _ hno
          show headerGet _ _ = _
          simp only [Bool.false_eq_true, if_false, foldl_set_header_eq]
          rw [headerGet_foldl_not_mem _ _ _ hno, headerGet_set, if_neg hCTMD5]
          rfl

theorem uploadRequest_wire_contract_witness :
    reqChk.contentLength = (fileA.content.length : Int)
    ∧ ((∀ kv ∈ uHTTP.headers,
          canonicalMIMEHeaderKey kv.1 ≠ canonicalMIMEHeaderKey ("Content-Type".data)) →
        headerGet reqChk.header ("Content-Type".data) = some ("application/x-binary".data))
    ∧ (headerGet reqChk.header ("Content-Type".data) = some ("application/x-binary".data)
        ∨ ∃ kv, kv ∈ uHTTP.headers
            ∧ canonicalMIMEHeaderKey kv.1 = canonicalMIMEHeaderKey ("Content-Type".data)
            ∧ headerGet reqChk.header ("Content-Type".data) = some kv.2)
    ∧ (true = true →
        headerGet reqChk.header ContentMD5
          = some (base64Encode (md5zero (readAll fileA))))
    ∧ (true = false →
        (∀ kv ∈ uHTTP.headers,
          canonicalMIMEHeaderKey kv.1 ≠ canonicalMIMEHeaderKey ContentMD5) →
        headerGet reqChk.header ContentMD5 = none) :=
  uploadRequest_wire_contract uHTTP parseHTTP fsNone md5zero fileA true reqChk
    ⟨none⟩ (by decide)
